import Mathlib

/-!
Verification development for the sqlite-to-Postgres migration pipeline
(`03_sqlite_to_postgres/load_data.py`) and its consistency checker
(`03_sqlite_to_postgres/tests/check_consistency.py`).

The Python code is shallowly embedded: rows fetched from sqlite are lists of
`SValue` (the value kinds the sqlite3 driver returns), validators and the
per-table scan are explicit state-passing functions, and code paths that raise
an uncaught Python exception are modelled by `Option.none`.
-/

namespace LoadData

/-- A value as returned by the sqlite3 driver for one column: `NULL`, an
integer, a float (carried as its textual repr; no claim depends on float
arithmetic or on int/float cross-type equality), a text value, or a blob
(carried as the textual body of its repr). -/
inductive SValue where
  | null
  | intV (n : Int)
  | realV (r : String)
  | textV (s : String)
  | blobV (b : String)
deriving DecidableEq

/-- Python `str(v)` for an sqlite value, as used by `'{0}'.format(...)` and by
the audit log: `str(None)` is `"None"`. -/
def pyToString : SValue → List Char
  | .null => "None".data
  | .intV n => (toString n).data
  | .realV r => r.data
  | .textV s => s.data
  | .blobV b => "b".data ++ [Char.ofNat 39] ++ b.data ++ [Char.ofNat 39]

/-- Stringification used by Python's csv writer: `None` is written as the
empty field, every other value via `str`. -/
def csvToString : SValue → List Char
  | .null => []
  | v => pyToString v

/-- Python `str.strip()` whitespace set restricted to the ASCII whitespace
characters that can occur in these rows. -/
def isPySpace (c : Char) : Bool :=
  c = ' ' ∨ c = '\t' ∨ c = '\n' ∨ c = '\r' ∨ c = Char.ofNat 11 ∨ c = Char.ofNat 12

/-- Python `s.strip()`: drop whitespace from both ends. -/
def pyStrip (l : List Char) : List Char :=
  ((l.dropWhile isPySpace).reverse.dropWhile isPySpace).reverse

/-- Python `s.rstrip('0')`: drop trailing `'0'` characters. -/
def rstripZeros (l : List Char) : List Char :=
  (l.reverse.dropWhile (fun c => c = '0')).reverse

/-- One left-to-right, non-overlapping pass of Python `s.replace(pat, '')`,
with an explicit fuel argument (fuel is the length of the scanned list, so it
never runs out). -/
def removeSubFuel (pat : List Char) : Nat → List Char → List Char
  | 0, l => l
  | _ + 1, [] => []
  | fuel + 1, c :: rest =>
    if pat.isPrefixOf (c :: rest) then
      removeSubFuel pat fuel (List.drop (pat.length - 1) rest)
    else
      c :: removeSubFuel pat fuel rest

/-- Python `s.replace(pat, '')` for a non-empty pattern. -/
def removeSub (pat : List Char) (l : List Char) : List Char :=
  removeSubFuel pat l.length l

/-- Python `s.strip('\x7b\x7d')`: drop curly braces from both ends. -/
def stripBraces (l : List Char) : List Char :=
  let isBrace := fun c => c = Char.ofNat 123 ∨ c = Char.ofNat 125
  ((l.dropWhile isBrace).reverse.dropWhile isBrace).reverse

def isDigitChar (c : Char) : Bool := '0' ≤ c ∧ c ≤ '9'

def isHexChar (c : Char) : Bool :=
  isDigitChar c ∨ ('a' ≤ c ∧ c ≤ 'f') ∨ ('A' ≤ c ∧ c ≤ 'F')

/-- Tail of a hex digit run: single underscores allowed only between digits. -/
def hexRunTail : List Char → Bool
  | [] => true
  | '_' :: c :: rest => isHexChar c ∧ hexRunTail rest
  | '_' :: [] => false
  | c :: rest => isHexChar c ∧ hexRunTail rest

/-- Hex digit run as accepted by Python `int(s, 16)` after prefix handling:
non-empty, single underscores allowed only between digits. -/
def hexRunOk : List Char → Bool
  | [] => false
  | c :: rest => isHexChar c ∧ hexRunTail rest

/-- Does Python `int(s, 16)` succeed?  `int` strips surrounding whitespace,
accepts an optional sign and an optional `0x`/`0X` prefix (with an optional
underscore after it), then a run of hex digits with single underscores
between digits. -/
def pyIntBase16Ok (l : List Char) : Bool :=
  let core := pyStrip l
  let core := match core with
    | '+' :: rest => rest
    | '-' :: rest => rest
    | rest => rest
  let core := match core with
    | '0' :: 'x' :: rest => (match rest with | '_' :: r => r | r => r)
    | '0' :: 'X' :: rest => (match rest with | '_' :: r => r | r => r)
    | rest => rest
  hexRunOk core

/-- Does `uuid.UUID(s)` succeed on a string argument?  Mirrors
`uuid.UUID.__init__`: remove every occurrence of `urn:` and then of `uuid:`,
strip curly braces from both ends, remove all dashes, require exactly 32
remaining characters, then parse them with `int(hex, 16)`.  (The subsequent
range check cannot fail: dashes and sign characters were removed or counted in
the 32, so the value is below 2^128.) -/
def uuidStringOk (s : String) : Bool :=
  let l := removeSub "uuid:".data (removeSub "urn:".data s.data)
  let l := (stripBraces l).filter (fun c => ¬ c = '-')
  l.length = 32 ∧ pyIntBase16Ok l

/-- A Python `datetime` value: calendar fields, microseconds, and a UTC
offset in minutes (the embedded pipeline only ever builds aware datetimes,
since the parse format ends in `%z`). -/
structure PyDatetime where
  year : Nat
  month : Nat
  day : Nat
  hour : Nat
  minute : Nat
  second : Nat
  usec : Nat
  offMin : Int
deriving DecidableEq

def digitVal (c : Char) : Nat := c.toNat - 48

/-- `%Y` of `_strptime`: exactly four digits. -/
def parseYear : List Char → Option (Nat × List Char)
  | a :: b :: c :: d :: rest =>
    if isDigitChar a ∧ isDigitChar b ∧ isDigitChar c ∧ isDigitChar d then
      some (digitVal a * 1000 + digitVal b * 100 + digitVal c * 10 + digitVal d, rest)
    else none
  | _ => none

/-- `%m` of `_strptime` (regex `1[0-2]|0[1-9]|[1-9]`, leftmost alternative
first; the one-digit fallback after a consumed two-digit match can never
rescue the overall match because the following literal is not a digit). -/
def parseMonth : List Char → Option (Nat × List Char)
  | [] => none
  | c0 :: rest0 =>
    if c0 = '1' then
      match rest0 with
      | c1 :: rest1 =>
        if '0' ≤ c1 ∧ c1 ≤ '2' then some (10 + digitVal c1, rest1) else some (1, rest0)
      | [] => some (1, [])
    else if c0 = '0' then
      match rest0 with
      | c1 :: rest1 => if '1' ≤ c1 ∧ c1 ≤ '9' then some (digitVal c1, rest1) else none
      | [] => none
    else if '2' ≤ c0 ∧ c0 ≤ '9' then some (digitVal c0, rest0)
    else none

/-- `%d` of `_strptime` (regex `3[01]|[12]\d|0[1-9]|[1-9]`). -/
def parseDay : List Char → Option (Nat × List Char)
  | [] => none
  | c0 :: rest0 =>
    if c0 = '3' then
      match rest0 with
      | c1 :: rest1 =>
        if c1 = '0' ∨ c1 = '1' then some (30 + digitVal c1, rest1) else some (3, rest0)
      | [] => some (3, [])
    else if c0 = '1' ∨ c0 = '2' then
      match rest0 with
      | c1 :: rest1 =>
        if isDigitChar c1 then some (digitVal c0 * 10 + digitVal c1, rest1)
        else some (digitVal c0, rest0)
      | [] => some (digitVal c0, [])
    else if c0 = '0' then
      match rest0 with
      | c1 :: rest1 => if '1' ≤ c1 ∧ c1 ≤ '9' then some (digitVal c1, rest1) else none
      | [] => none
    else if '4' ≤ c0 ∧ c0 ≤ '9' then some (digitVal c0, rest0)
    else none

/-- `%H` of `_strptime` (regex `2[0-3]|[0-1]\d|\d`). -/
def parseHour : List Char → Option (Nat × List Char)
  | [] => none
  | c0 :: rest0 =>
    if c0 = '2' then
      match rest0 with
      | c1 :: rest1 =>
        if '0' ≤ c1 ∧ c1 ≤ '3' then some (20 + digitVal c1, rest1) else some (2, rest0)
      | [] => some (2, [])
    else if c0 = '0' ∨ c0 = '1' then
      match rest0 with
      | c1 :: rest1 =>
        if isDigitChar c1 then some (digitVal c0 * 10 + digitVal c1, rest1)
        else some (digitVal c0, rest0)
      | [] => some (digitVal c0, [])
    else if isDigitChar c0 then some (digitVal c0, rest0)
    else none

/-- `%M` and `%S` of `_strptime` (regex `[0-5]\d|\d`). -/
def parseMinSec : List Char → Option (Nat × List Char)
  | [] => none
  | c0 :: rest0 =>
    if '0' ≤ c0 ∧ c0 ≤ '5' then
      match rest0 with
      | c1 :: rest1 =>
        if isDigitChar c1 then some (digitVal c0 * 10 + digitVal c1, rest1)
        else some (digitVal c0, rest0)
      | [] => some (digitVal c0, [])
    else if isDigitChar c0 then some (digitVal c0, rest0)
    else none

/-- `%f` of `_strptime`: one to six digits, greedy.  Because the following
`%z` directive can only start with `+`, `-` or `Z`, a run of more than six
digits can never match, so the greedy read with a no-further-digit check is
exact. -/
def parseFrac (l : List Char) : Option (Nat × List Char) :=
  let ds := l.takeWhile isDigitChar
  let rest := l.dropWhile isDigitChar
  if ds.length = 0 ∨ 6 < ds.length then none
  else
    let v := ds.foldl (fun acc c => acc * 10 + digitVal c) 0
    some (v * 10 ^ (6 - ds.length), rest)

def parseLit (c : Char) : List Char → Option (List Char)
  | x :: rest => if x = c then some rest else none
  | [] => none

def parseTwoDigits : List Char → Option (Nat × List Char)
  | a :: b :: rest =>
    if isDigitChar a ∧ isDigitChar b then some (digitVal a * 10 + digitVal b, rest) else none
  | _ => none

/-- Optional seconds part of a `%z` offset, `hadColon` telling whether the
minutes were colon-separated (`_strptime` rejects inconsistent colon use);
an optional fraction may follow the seconds.  The seconds do not influence
the stored offset minutes. -/
def parseTzSeconds (hadColon : Bool) (l : List Char) : Option (List Char)
  := match l with
  | [] => some []
  | l =>
    let l' := if hadColon then parseLit ':' l else some l
    match l' with
    | none => none
    | some l2 =>
      match parseTwoDigits l2 with
      | none => if hadColon then none else some l
      | some (_, l3) =>
        match l3 with
        | '.' :: l4 =>
          let ds := l4.takeWhile isDigitChar
          if ds.length = 0 ∨ 6 < ds.length then none
          else some (l4.dropWhile isDigitChar)
        | l4 => some l4

/-- `%z` of `_strptime`: `Z`, or a sign followed by two hour digits, an
optional colon, two minute digits, and an optional seconds(.fraction) part.
The resulting offset must be strictly less than 24 hours in magnitude
(`datetime.timezone` raises `ValueError` otherwise). -/
def parseTz (l : List Char) : Option (Int × List Char) :=
  match l with
  | 'Z' :: rest => some (0, rest)
  | c :: rest =>
    if c = '+' ∨ c = '-' then
      match parseTwoDigits rest with
      | none => none
      | some (hh, r1) =>
        let hadColon := match r1 with | ':' :: _ => true | _ => false
        let r1' := match r1 with | ':' :: r => r | r => r
        match parseTwoDigits r1' with
        | none => none
        | some (mm, r2) =>
          match parseTzSeconds hadColon r2 with
          | none => none
          | some r3 =>
            let total : Nat := hh * 60 + mm
            if total < 1440 then
              some (if c = '-' then -(total : Int) else (total : Int), r3)
            else none
    else none
  | [] => none

/-- Number of days in a month of the proleptic Gregorian calendar used by
`datetime`. -/
def daysInMonth (y m : Nat) : Nat :=
  if m = 2 then
    if y % 4 = 0 ∧ (¬ y % 100 = 0 ∨ y % 400 = 0) then 29 else 28
  else if m = 4 ∨ m = 6 ∨ m = 9 ∨ m = 11 then 30
  else 31

/-- `datetime.strptime(s, '%Y-%m-%d %H:%M:%S.%f%z')`: the full string must be
consumed, and constructing the `datetime` additionally requires `year ≥ 1`
and a day that exists in the month (the directive regexes already bound the
other fields). -/
def pyStrptime (l : List Char) : Option PyDatetime :=
  match parseYear l with
  | none => none
  | some (y, r1) =>
    match parseLit '-' r1 with
    | none => none
    | some r2 =>
      match parseMonth r2 with
      | none => none
      | some (mo, r3) =>
        match parseLit '-' r3 with
        | none => none
        | some r4 =>
          match parseDay r4 with
          | none => none
          | some (d, r5) =>
            match parseLit ' ' r5 with
            | none => none
            | some r6 =>
              match parseHour r6 with
              | none => none
              | some (h, r7) =>
                match parseLit ':' r7 with
                | none => none
                | some r8 =>
                  match parseMinSec r8 with
                  | none => none
                  | some (mi, r9) =>
                    match parseLit ':' r9 with
                    | none => none
                    | some r10 =>
                      match parseMinSec r10 with
                      | none => none
                      | some (s, r11) =>
                        match parseLit '.' r11 with
                        | none => none
                        | some r12 =>
                          match parseFrac r12 with
                          | none => none
                          | some (f, r13) =>
                            match parseTz r13 with
                            | none => none
                            | some (off, r14) =>
                              if r14 = [] ∧ 1 ≤ y ∧ d ≤ daysInMonth y mo then
                                some ⟨y, mo, d, h, mi, s, f, off⟩
                              else none

/-- `convert_str_to_datetime` from `load_data.py` applied to an sqlite value
`v`: it formats `'{0}00'.format(v)` (appending the two characters `00`, not
`+00`) and parses with the fixed format, returning the parsed datetime or
the original value on `ValueError`.  The embedding keeps only the outcome:
`some dt` when parsing succeeded, `none` when the original value is kept. -/
def convertStrToDatetime (v : SValue) : Option PyDatetime :=
  pyStrptime (pyToString v ++ ['0', '0'])

/-- Declared type of a dataclass field in `load_data.py`: `uuid.UUID`, `str`,
`Optional[str]`, `Optional[date]`, `Optional[datetime]`, or the rating type
`Union[int, float, None]`. -/
inductive FieldType where
  | uuidT
  | strT
  | optStr
  | optDate
  | optDatetime
  | ratingT
deriving DecidableEq

/-- One dataclass field: its name and declared type, in declaration order. -/
structure Column where
  name : String
  type : FieldType
deriving DecidableEq

/-- `check_value_error(func, arg)` for a non-union declared type: `some true`
when calling the type on the value raises `ValueError`, `some false` when the
call succeeds, and `none` when it raises a different exception (only
`ValueError` is caught, so `TypeError`/`AttributeError` propagate out of the
validator).  `uuid.UUID` on a non-string raises `TypeError` (no argument
given a usable form) or `AttributeError` (`replace` on a non-string);
`str(...)` never raises.  The union-typed cases are unreachable from
`_validate_types`, which sends union types through the `isinstance` branch;
they are mapped to `none`. -/
def checkValueError : FieldType → SValue → Option Bool
  | .uuidT, .textV s => some (¬ uuidStringOk s)
  | .uuidT, _ => none
  | .strT, _ => some false
  | _, _ => none

/-- One field check of `_validate_types`: `some true` when the value conforms
to the declared type, `some false` when the row must be rejected, `none` when
an uncaught exception escapes.  Union types go through
`isinstance(row_value, get_args(...))`, converting textual timestamps first
when `datetime` is among the member types; the embedding uses that sqlite
values are never `date`/`datetime` instances, so `Optional[date]` admits only
`NULL`. -/
def checkField : FieldType → SValue → Option Bool
  | .optStr, v => some (match v with | .textV _ => true | .null => true | _ => false)
  | .optDate, v => some (match v with | .null => true | _ => false)
  | .optDatetime, v =>
    some ((convertStrToDatetime v).isSome ∨ v = .null)
  | .ratingT, v => some (match v with | .intV _ => true | .realV _ => true | .null => true | _ => false)
  | t, v =>
    match checkValueError t v with
    | none => none
    | some raised => some (¬ raised)

/-- `_validate_types` over the fields in declaration order: stops at the
first non-conforming field with `some false`; `none` when a field check
raises an uncaught exception before any field failed. -/
def validateTypes : List Column → List SValue → Option Bool
  | [], _ => some true
  | _, [] => some true
  | col :: cols, v :: vs =>
    match checkField col.type v with
    | none => none
    | some false => some false
    | some true => validateTypes cols vs

/-- The mutable uniqueness state of `SQLiteLoader`: `_uniq_ids` and
`_uniq_fk_ids` (sets embedded as lists, membership being what matters). -/
structure VState where
  uniqIds : List SValue
  uniqFks : List (List String)
deriving DecidableEq

/-- `getattr(dc, name)`: the value of the field called `name`. -/
def colValue (cols : List Column) (row : List SValue) (name : String) : Option SValue :=
  match cols, row with
  | c :: cs, v :: vs => if c.name = name then some v else colValue cs vs name
  | _, _ => none

/-- `dc.id`. -/
def dcId (cols : List Column) (row : List SValue) : Option SValue :=
  colValue cols row "id"

/-- Field names ending in `_id` (the foreign-key columns; `id` itself does
not end in `_id`). -/
def fkNames (cols : List Column) : List String :=
  (cols.filter (fun c => "_id".data.isSuffixOf c.name.data)).map Column.name

/-- Helper of `fkTuple`: strip each named foreign-key value in turn. -/
def fkTupleGo (cols : List Column) (row : List SValue) : List String → Option (List String)
  | [] => some []
  | n :: ns =>
    match colValue cols row n with
    | some (.textV s) =>
      match fkTupleGo cols row ns with
      | some rest => some (String.mk (pyStrip s.data) :: rest)
      | none => none
    | _ => none

/-- `tuple(getattr(dc, fk).strip() for fk in fk_ids)`: `none` when some
foreign-key value is not a string (`.strip()` raises `AttributeError`,
which nothing catches). -/
def fkTuple (cols : List Column) (row : List SValue) : Option (List String) :=
  fkTupleGo cols row (fkNames cols)

/-- `SQLiteLoader._validate_uniqs`: reject on an already-seen id (state
untouched); otherwise record the id, then reject on an already-seen non-empty
foreign-key tuple; otherwise record the tuple (the empty tuple too) and
accept.  `none` models the uncaught `AttributeError` on a non-string
foreign-key value. -/
def validateUniqs (cols : List Column) (st : VState) (row : List SValue) :
    Option (Bool × VState) :=
  match dcId cols row with
  | none => none
  | some idv =>
    if idv ∈ st.uniqIds then some (false, st)
    else
      match fkTuple cols row with
      | none => none
      | some fks =>
        if fks ≠ [] ∧ fks ∈ st.uniqFks then
          some (false, VState.mk (idv :: st.uniqIds) st.uniqFks)
        else
          some (true, VState.mk (idv :: st.uniqIds) (fks :: st.uniqFks))

/-- One row of `_save_to_csv`: `self._validate_uniqs(row) and
self._validate_types(row)` with Python short-circuiting — the type gate only
runs when the uniqueness gate accepted; the uniqueness state is mutated
either way. -/
def processRow (cols : List Column) (st : VState) (row : List SValue) :
    Option (Bool × VState) :=
  match validateUniqs cols st row with
  | none => none
  | some (false, st1) => some (false, st1)
  | some (true, st1) =>
    match validateTypes cols row with
    | none => none
    | some b => some (b, st1)

/-- The scan of one table's row stream: threads the uniqueness state and
collects the admissible rows in order (the rows written to the csv batches;
paging does not change the outcome because the state persists across pages
of one table). -/
def processTableAux (cols : List Column) : VState → List (List SValue) →
    Option (VState × List (List SValue))
  | st, [] => some (st, [])
  | st, row :: rest =>
    match processRow cols st row with
    | none => none
    | some (b, st1) =>
      match processTableAux cols st1 rest with
      | none => none
      | some (st2, adm) => some (st2, if b then row :: adm else adm)

/-- One logical table of the registry: its name, its dataclass fields in
order, and the rows its extraction query yields. -/
structure TableData where
  name : String
  cols : List Column
  rows : List (List SValue)

/-- `SQLiteLoader.load_movies` over a registry: per table the code resets
`_uniq_ids` (and the counters) but NOT `_uniq_fk_ids`, which persists from
table to table; returns per table the admitted rows, `none` when some row
made the run crash. -/
def loadMovies : VState → List TableData → Option (List (String × List (List SValue)))
  | _, [] => some []
  | st, t :: rest =>
    match processTableAux t.cols (VState.mk [] st.uniqFks) t.rows with
    | none => none
    | some (st1, adm) =>
      match loadMovies st1 rest with
      | none => none
      | some out => some ((t.name, adm) :: out)

/-- The five table schemas of the registry in `load_data.py`, fields in
dataclass order (matching the projection order of each extraction query). -/
def filmWorkCols : List Column :=
  [⟨"id", .uuidT⟩, ⟨"title", .strT⟩, ⟨"description", .optStr⟩,
   ⟨"creation_date", .optDate⟩, ⟨"rating", .ratingT⟩, ⟨"type", .strT⟩,
   ⟨"created", .optDatetime⟩, ⟨"modified", .optDatetime⟩]

def genreCols : List Column :=
  [⟨"id", .uuidT⟩, ⟨"name", .strT⟩, ⟨"description", .optStr⟩,
   ⟨"created", .optDatetime⟩, ⟨"modified", .optDatetime⟩]

def personCols : List Column :=
  [⟨"id", .uuidT⟩, ⟨"full_name", .strT⟩, ⟨"created", .optDatetime⟩,
   ⟨"modified", .optDatetime⟩]

def genreFilmWorkCols : List Column :=
  [⟨"id", .uuidT⟩, ⟨"film_work_id", .uuidT⟩, ⟨"genre_id", .uuidT⟩,
   ⟨"created", .optDatetime⟩]

def personFilmWorkCols : List Column :=
  [⟨"id", .uuidT⟩, ⟨"film_work_id", .uuidT⟩, ⟨"person_id", .uuidT⟩,
   ⟨"role", .optStr⟩, ⟨"created", .optDatetime⟩]

/-- The fixed registry with the rows each table's query returns. -/
def registry (fw g p gfw pfw : List (List SValue)) : List TableData :=
  [⟨"film_work", filmWorkCols, fw⟩, ⟨"genre", genreCols, g⟩,
   ⟨"person", personCols, p⟩, ⟨"genre_film_work", genreFilmWorkCols, gfw⟩,
   ⟨"person_film_work", personFilmWorkCols, pfw⟩]

/-- The loader's initial state (`SQLiteLoader.__init__`): both sets empty. -/
def initState : VState := VState.mk [] []

/-- Per-character processing of one field by Python's `csv.writer` with
`delimiter='\t'`, `escapechar='\\'` and the default dialect (`quotechar='"'`,
`doublequote=True`, `quoting=QUOTE_MINIMAL`, `lineterminator='\r\n'`):
returns the transformed characters and whether the field must be quoted.
A quote character is doubled and forces quoting; the escape character is
escape-prefixed and does not force quoting; the delimiter and line-terminator
characters force quoting and are written verbatim. -/
def csvFieldAux : List Char → List Char × Bool
  | [] => ([], false)
  | c :: rest =>
    let (out, q) := csvFieldAux rest
    if c = '\t' ∨ c = '\r' ∨ c = '\n' then (c :: out, true)
    else if c = '"' then ('"' :: '"' :: out, true)
    else if c = '\\' then ('\\' :: '\\' :: out, q)
    else (c :: out, q)

/-- One serialized field: the processed characters, wrapped in quote
characters when quoting was forced. -/
def csvField (l : List Char) : List Char :=
  let (out, q) := csvFieldAux l
  if q then '"' :: (out ++ ['"']) else out

/-- Tab-join of serialized fields. -/
def csvJoin : List (List Char) → List Char
  | [] => []
  | [f] => f
  | f :: rest => f ++ '\t' :: csvJoin rest

/-- `csv.writer(...).writerow(row_values)`: each value stringified (`None`
becomes the empty field), fields tab-joined in field order, record terminated
with CRLF; a record consisting of one single empty field is written as a
quoted empty field. -/
def csvWriterow (vals : List SValue) : List Char :=
  let fs := vals.map (fun v => csvField (csvToString v))
  match fs with
  | [[]] => '"' :: '"' :: '\r' :: '\n' :: []
  | _ => csvJoin fs ++ ['\r', '\n']

/-- The target table state relevant to `_insert_in_pg`: the committed rows,
each carrying its primary-key `id` in the first column (all five tables
declare `id` first). -/
structure PgTable where
  rows : List (List SValue)
deriving DecidableEq

/-- Modelled third-party semantics (psycopg2 `copy_from` against a table
whose primary key is `id`, as the spec describes the Loader's contract):
`COPY` is a single statement inside the open transaction — if any incoming
row's `id` equals the `id` of an already-committed row it raises
`UniqueViolation` and the statement has no effect, otherwise all rows of the
batch are applied and `cursor.rowcount` is the batch size. -/
def copyFrom (t : PgTable) (batch : List (List SValue)) :
    Option (PgTable × Nat) :=
  if batch.any (fun r => t.rows.any (fun e => decide (e.head? = r.head?))) then none
  else some (PgTable.mk (t.rows ++ batch), batch.length)

/-- `PostgresSaver._insert_in_pg`: on `UniqueViolation` roll back (the table
keeps exactly its prior rows) and add nothing to the inserted-rows counter;
otherwise commit and count the copied rows.  Returns the resulting table and
the number of rows this invocation added to `_number_of_inserted_rows`. -/
def insertInPg (t : PgTable) (batch : List (List SValue)) : PgTable × Nat :=
  match copyFrom t batch with
  | none => (t, 0)
  | some (t1, n) => (t1, n)

/-- A value in a row fetched from Postgres by the consistency checker:
either a plain value (uuids arrive as strings) or a `datetime` for a
timestamp column. -/
inductive PValue where
  | base (v : SValue)
  | timeV (dt : PyDatetime)
deriving DecidableEq

/-- `datetime.strftime(column, '%Y-%m-%d %H:%M:%S.%f')`: zero-padded fields,
six-digit microseconds. -/
def padNum (w n : Nat) : List Char :=
  let ds := Nat.toDigits 10 n
  List.replicate (w - ds.length) '0' ++ ds

def strftimeF (dt : PyDatetime) : List Char :=
  padNum 4 dt.year ++ '-' :: padNum 2 dt.month ++ '-' :: padNum 2 dt.day ++
  ' ' :: padNum 2 dt.hour ++ ':' :: padNum 2 dt.minute ++ ':' :: padNum 2 dt.second ++
  '.' :: padNum 6 dt.usec

/-- `TablesChecker._convert` on one timestamp cell:
`'{0}+00'.format(strftime(...).rstrip('0'))` — every trailing `'0'`
character of the formatted string is stripped before `+00` is appended. -/
def normalizeDatetime (dt : PyDatetime) : List Char :=
  rstripZeros (strftimeF dt) ++ "+00".data

/-- `TablesChecker._convert` on one cell: datetimes are replaced by their
normalized string, everything else is kept. -/
def convertCell : PValue → SValue
  | .base v => v
  | .timeV dt => .textV (String.mk (normalizeDatetime dt))

/-- `TablesChecker._convert` on a row. -/
def convertRow (r : List PValue) : List SValue := r.map convertCell

/-- Python `==` on sqlite cell values.  (Cross-type numeric equality between
`int` and `float` is not modelled; no claim exercises it.) -/
def pyEqCell (a b : SValue) : Bool := a == b

/-- Python tuple equality between a sqlite row and a converted target row. -/
def pyEqRow (a b : List SValue) : Bool :=
  a.length = b.length ∧ (a.zip b).all (fun p => pyEqCell p.1 p.2)

/-- The inner scan of `TablesChecker._compare_rows` for one source row over
the fetched target rows: the first value-for-value match increments the
counter by one and stops the scan. -/
def compareRow (s : List SValue) : List (List PValue) → Nat
  | [] => 0
  | p :: rest => if pyEqRow s (convertRow p) then 1 else compareRow s rest

/-- `_compare_rows` over one source page: per-source-row contributions
summed. -/
def comparePage (page : List (List SValue)) (pgRows : List (List PValue)) : Nat :=
  (page.map (fun s => compareRow s pgRows)).sum

/-- `_get_rows_from_pg_by_ids`: the target rows whose first column (`id`)
occurs among the ids of the current source page. -/
def getRowsFromPgByIds (pg : List (List PValue)) (page : List (List SValue)) :
    List (List PValue) :=
  pg.filter (fun p => page.any (fun s => p.head? == (s.head?.map PValue.base)))

/-- `fetchmany(n)` paging: split the source rows into consecutive pages of
`cap` rows (fuel-style structural recursion; the first argument is the
remaining capacity of the open page). -/
def chunksAux (n : Nat) : Nat → List α → List α → List (List α)
  | _, acc, [] => if acc.isEmpty then [] else [acc.reverse]
  | cap, acc, x :: xs =>
    if cap ≤ 1 then (x :: acc).reverse :: chunksAux n n [] xs
    else chunksAux n (cap - 1) (x :: acc) xs

def chunks (n : Nat) (l : List α) : List (List α) := chunksAux n n [] l

/-- `TablesChecker.calculate_tables_stats` restricted to one table: the
`(sqlite, pg, matched)` counters — total source and target row counts, and
the matches accumulated page by page (each page fetching from the target
only the rows whose id occurs in that page, default page size 100). -/
def checkTable (src : List (List SValue)) (pg : List (List PValue)) :
    Nat × Nat × Nat :=
  (src.length, pg.length,
    ((chunks 100 src).map
      (fun page => comparePage page (getRowsFromPgByIds pg page))).sum)

/-! Concrete inputs used by the witnesses and counterexamples. -/

def uuidA : String := "00000000-0000-0000-0000-00000000000a"
def uuidB : String := "00000000-0000-0000-0000-00000000000b"
def uuidF : String := "00000000-0000-0000-0000-0000000000f1"
def uuidG : String := "00000000-0000-0000-0000-0000000000e2"

/-- A valid `genre_film_work` row: id `uuidA`, foreign keys `(uuidF, uuidG)`. -/
def gfwRow : List SValue := [.textV uuidA, .textV uuidF, .textV uuidG, .null]

/-- A valid `person_film_work` row whose id `uuidB` is fresh but whose
foreign-key pair `(uuidF, uuidG)` coincides with `gfwRow`'s. -/
def pfwRow : List SValue :=
  [.textV uuidB, .textV uuidF, .textV uuidG, .null, .null]

/-- A second `genre_film_work` row: fresh id `uuidB`, same foreign-key pair
as `gfwRow`. -/
def gfwRow2 : List SValue := [.textV uuidB, .textV uuidF, .textV uuidG, .null]

/-- Two `genre` rows sharing the primary identifier `not-a-uuid`; the first
occurrence fails the type gate (`not-a-uuid` is not a valid uuid). -/
def genreBadRow1 : List SValue :=
  [.textV "not-a-uuid", .textV "Action", .null, .null, .null]

def genreBadRow2 : List SValue :=
  [.textV "not-a-uuid", .textV "Drama", .null, .null, .null]

/-- Two type-valid `genre` rows sharing the primary identifier `uuidA`. -/
def genreRow1 : List SValue := [.textV uuidA, .textV "Action", .null, .null, .null]

def genreRow2 : List SValue := [.textV uuidA, .textV "Drama", .null, .null, .null]

/-- The target-side timestamp `2021-01-01 12:00:00.500000` (UTC). -/
def dtHalf : PyDatetime := ⟨2021, 1, 1, 12, 0, 0, 500000, 0⟩

/-- The three-source-rows / two-target-rows consistency scenario. -/
def srcRow1 : List SValue := [.textV "1", .textV "a"]
def srcRow2 : List SValue := [.textV "2", .textV "b"]
def srcRow3 : List SValue := [.textV "3", .textV "c"]
def pgRow1 : List PValue := [.base (.textV "1"), .base (.textV "a")]
def pgRow2 : List PValue := [.base (.textV "2"), .base (.textV "b")]

/-! Helper lemmas about the uniqueness gate and the table scan. -/

theorem validateUniqs_id (cols : List Column) (st : VState) (row : List SValue)
    (b : Bool) (st1 : VState)
    (h : validateUniqs cols st row = some (b, st1)) :
    ∃ idv, dcId cols row = some idv ∧ idv ∈ st1.uniqIds ∧
      st.uniqIds ⊆ st1.uniqIds ∧ (b = true → idv ∉ st.uniqIds) := by
  cases hid : dcId cols row with
  | none => simp [validateUniqs, hid] at h
  | some idv =>
    refine ⟨idv, rfl, ?_⟩
    by_cases hm : idv ∈ st.uniqIds
    · simp [validateUniqs, hid, hm] at h
      obtain ⟨hb, hst⟩ := h
      subst hb; subst hst
      exact ⟨hm, fun _ hmem => hmem, by simp⟩
    · cases hfk : fkTuple cols row with
      | none => simp [validateUniqs, hid, hm, hfk] at h
      | some fks =>
        by_cases hdup : fks ≠ [] ∧ fks ∈ st.uniqFks
        · simp [validateUniqs, hid, hm, hfk, hdup] at h
          obtain ⟨hb, hst⟩ := h
          subst hb; subst hst
          exact ⟨by simp, fun x hx => by simp [hx], by simp⟩
        · simp [validateUniqs, hid, hm, hfk, hdup] at h
          obtain ⟨hb, hst⟩ := h
          subst hb; subst hst
          exact ⟨by simp, fun x hx => by simp [hx], fun _ => hm⟩

theorem validateUniqs_fks_mono (cols : List Column) (st : VState)
    (row : List SValue) (b : Bool) (st1 : VState)
    (h : validateUniqs cols st row = some (b, st1)) :
    st.uniqFks ⊆ st1.uniqFks := by
  cases hid : dcId cols row with
  | none => simp [validateUniqs, hid] at h
  | some idv =>
    by_cases hm : idv ∈ st.uniqIds
    · simp [validateUniqs, hid, hm] at h
      obtain ⟨_, hst⟩ := h
      subst hst; exact fun x hx => hx
    · cases hfk : fkTuple cols row with
      | none => simp [validateUniqs, hid, hm, hfk] at h
      | some fks =>
        by_cases hdup : fks ≠ [] ∧ fks ∈ st.uniqFks
        · simp [validateUniqs, hid, hm, hfk, hdup] at h
          obtain ⟨_, hst⟩ := h
          subst hst; exact fun x hx => hx
        · simp [validateUniqs, hid, hm, hfk, hdup] at h
          obtain ⟨_, hst⟩ := h
          subst hst; exact fun x hx => by simp [hx]

theorem validateUniqs_fk_recorded (cols : List Column) (st : VState)
    (row : List SValue) (st1 : VState)
    (h : validateUniqs cols st row = some (true, st1)) :
    ∀ fks, fkTuple cols row = some fks → fks ∈ st1.uniqFks := by
  intro fks hfks
  cases hid : dcId cols row with
  | none => simp [validateUniqs, hid] at h
  | some idv =>
    by_cases hm : idv ∈ st.uniqIds
    · simp [validateUniqs, hid, hm] at h
    · by_cases hdup : fks ≠ [] ∧ fks ∈ st.uniqFks
      · simp [validateUniqs, hid, hm, hfks, hdup] at h
      · simp [validateUniqs, hid, hm, hfks, hdup] at h
        subst h; simp

theorem processRow_id (cols : List Column) (st : VState) (row : List SValue)
    (b : Bool) (st1 : VState)
    (h : processRow cols st row = some (b, st1)) :
    ∃ idv, dcId cols row = some idv ∧ idv ∈ st1.uniqIds ∧
      st.uniqIds ⊆ st1.uniqIds ∧ (b = true → idv ∉ st.uniqIds) := by
  cases hv : validateUniqs cols st row with
  | none => simp [processRow, hv] at h
  | some p =>
    obtain ⟨b0, stv⟩ := p
    cases b0 with
    | false =>
      simp [processRow, hv] at h
      obtain ⟨hb, hst⟩ := h
      obtain ⟨idv, h1, h2, h3, _⟩ := validateUniqs_id cols st row false stv hv
      subst hst
      exact ⟨idv, h1, h2, h3, fun hbt => by rw [hbt] at hb; cases hb⟩
    | true =>
      cases ht : validateTypes cols row with
      | none => simp [processRow, hv, ht] at h
      | some bt =>
        simp [processRow, hv, ht] at h
        obtain ⟨hb, hst⟩ := h
        obtain ⟨idv, h1, h2, h3, h4⟩ := validateUniqs_id cols st row true stv hv
        subst hst
        exact ⟨idv, h1, h2, h3, fun _ => h4 rfl⟩

theorem processRow_fks_mono (cols : List Column) (st : VState)
    (row : List SValue) (b : Bool) (st1 : VState)
    (h : processRow cols st row = some (b, st1)) :
    st.uniqFks ⊆ st1.uniqFks := by
  cases hv : validateUniqs cols st row with
  | none => simp [processRow, hv] at h
  | some p =>
    obtain ⟨b0, stv⟩ := p
    cases b0 with
    | false =>
      simp [processRow, hv] at h
      obtain ⟨_, hst⟩ := h
      subst hst
      exact validateUniqs_fks_mono cols st row false stv hv
    | true =>
      cases ht : validateTypes cols row with
      | none => simp [processRow, hv, ht] at h
      | some bt =>
        simp [processRow, hv, ht] at h
        obtain ⟨_, hst⟩ := h
        subst hst
        exact validateUniqs_fks_mono cols st row true stv hv

theorem processRow_fk_recorded (cols : List Column) (st : VState)
    (row : List SValue) (st1 : VState)
    (h : processRow cols st row = some (true, st1)) :
    ∀ fks, fkTuple cols row = some fks → fks ∈ st1.uniqFks := by
  cases hv : validateUniqs cols st row with
  | none => simp [processRow, hv] at h
  | some p =>
    obtain ⟨b0, stv⟩ := p
    cases b0 with
    | false => simp [processRow, hv] at h
    | true =>
      cases ht : validateTypes cols row with
      | none => simp [processRow, hv, ht] at h
      | some bt =>
        simp [processRow, hv, ht] at h
        obtain ⟨_, hst⟩ := h
        subst hst
        exact validateUniqs_fk_recorded cols st row stv hv

theorem processTableAux_ids_bound (cols : List Column) :
    ∀ (rows : List (List SValue)) (st st2 : VState) (adm : List (List SValue)),
      processTableAux cols st rows = some (st2, adm) →
      ∀ x, x ∈ st2.uniqIds → x ∈ st.uniqIds ∨ ∃ r ∈ rows, dcId cols r = some x := by
  intro rows
  induction rows with
  | nil =>
    intro st st2 adm h x hx
    simp [processTableAux] at h
    obtain ⟨hst, _⟩ := h
    subst hst
    exact Or.inl hx
  | cons row rest ih =>
    intro st st2 adm h x hx
    cases hp : processRow cols st row with
    | none => simp [processTableAux, hp] at h
    | some p =>
      obtain ⟨b, st1⟩ := p
      cases hrest : processTableAux cols st1 rest with
      | none => simp [processTableAux, hp, hrest] at h
      | some q =>
        obtain ⟨st2a, adma⟩ := q
        simp [processTableAux, hp, hrest] at h
        obtain ⟨hst2, _⟩ := h
        subst hst2
        rcases ih st1 st2a adma hrest x hx with hin1 | ⟨r, hr, hidr⟩
        · obtain ⟨idv, hid, _, _, _⟩ := processRow_id cols st row b st1 hp
          cases hv : validateUniqs cols st row with
          | none => simp [processRow, hv] at hp
          | some pv =>
            obtain ⟨b0, stv⟩ := pv
            have hstv : st1 = stv := by
              cases b0 with
              | false =>
                simp [processRow, hv] at hp
                exact hp.2.symm
              | true =>
                cases ht : validateTypes cols row with
                | none => simp [processRow, hv, ht] at hp
                | some bt =>
                  simp [processRow, hv, ht] at hp
                  exact hp.2.symm
            subst hstv
            cases hidc : dcId cols row with
            | none => simp [validateUniqs, hidc] at hv
            | some idw =>
              by_cases hm : idw ∈ st.uniqIds
              · simp [validateUniqs, hidc, hm] at hv
                obtain ⟨_, hstq⟩ := hv
                rw [← hstq] at hin1
                exact Or.inl hin1
              · cases hfk : fkTuple cols row with
                | none => simp [validateUniqs, hidc, hm, hfk] at hv
                | some fks =>
                  by_cases hdup : fks ≠ [] ∧ fks ∈ st.uniqFks
                  · simp [validateUniqs, hidc, hm, hfk, hdup] at hv
                    obtain ⟨_, hstq⟩ := hv
                    rw [← hstq] at hin1
                    simp at hin1
                    rcases hin1 with hxe | hxs
                    · exact Or.inr ⟨row, by simp, by rw [hidc, hxe]⟩
                    · exact Or.inl hxs
                  · simp [validateUniqs, hidc, hm, hfk, hdup] at hv
                    have hstq := hv.2
                    rw [← hstq] at hin1
                    simp at hin1
                    rcases hin1 with hxe | hxs
                    · exact Or.inr ⟨row, by simp, by rw [hidc, hxe]⟩
                    · exact Or.inl hxs
        · exact Or.inr ⟨r, by simp [hr], hidr⟩

theorem processTableAux_fks_mono (cols : List Column) :
    ∀ (rows : List (List SValue)) (st st2 : VState) (adm : List (List SValue)),
      processTableAux cols st rows = some (st2, adm) →
      st.uniqFks ⊆ st2.uniqFks := by
  intro rows
  induction rows with
  | nil =>
    intro st st2 adm h
    simp [processTableAux] at h
    obtain ⟨hst, _⟩ := h
    subst hst
    exact fun x hx => hx
  | cons row rest ih =>
    intro st st2 adm h
    cases hp : processRow cols st row with
    | none => simp [processTableAux, hp] at h
    | some p =>
      obtain ⟨b, st1⟩ := p
      cases hrest : processTableAux cols st1 rest with
      | none => simp [processTableAux, hp, hrest] at h
      | some q =>
        obtain ⟨st2a, adma⟩ := q
        simp [processTableAux, hp, hrest] at h
        obtain ⟨hst2, _⟩ := h
        subst hst2
        exact fun x hx =>
          ih st1 st2a adma hrest (processRow_fks_mono cols st row b st1 hp hx)

theorem processTableAux_fk_recorded (cols : List Column) :
    ∀ (rows : List (List SValue)) (st st2 : VState) (adm : List (List SValue)),
      processTableAux cols st rows = some (st2, adm) →
      ∀ q ∈ adm, ∀ fks, fkTuple cols q = some fks → fks ∈ st2.uniqFks := by
  intro rows
  induction rows with
  | nil =>
    intro st st2 adm h q hq
    simp [processTableAux] at h
    obtain ⟨_, hadm⟩ := h
    subst hadm
    simp at hq
  | cons row rest ih =>
    intro st st2 adm h q hq fks hfks
    cases hp : processRow cols st row with
    | none => simp [processTableAux, hp] at h
    | some p =>
      obtain ⟨b, st1⟩ := p
      cases hrest : processTableAux cols st1 rest with
      | none => simp [processTableAux, hp, hrest] at h
      | some pq =>
        obtain ⟨st2a, adma⟩ := pq
        simp [processTableAux, hp, hrest] at h
        obtain ⟨hst2, hadm⟩ := h
        subst hst2
        subst hadm
        cases b with
        | false =>
          simp at hq
          exact ih st1 st2a adma hrest q hq fks hfks
        | true =>
          simp at hq
          rcases hq with hq | hq
          · subst hq
            exact processTableAux_fks_mono cols rest st1 st2a adma hrest
              (processRow_fk_recorded cols st q st1 hp fks hfks)
          · exact ih st1 st2a adma hrest q hq fks hfks

theorem processTableAux_count (cols : List Column) :
    ∀ (rows : List (List SValue)) (st st2 : VState) (adm : List (List SValue)),
      processTableAux cols st rows = some (st2, adm) →
      (∀ x, x ∈ st.uniqIds →
        adm.countP (fun r => decide (dcId cols r = some x)) = 0) ∧
      (∀ x, adm.countP (fun r => decide (dcId cols r = some x)) ≤ 1) := by
  intro rows
  induction rows with
  | nil =>
    intro st st2 adm h
    simp [processTableAux] at h
    obtain ⟨_, hadm⟩ := h
    subst hadm
    simp
  | cons row rest ih =>
    intro st st2 adm h
    cases hp : processRow cols st row with
    | none => simp [processTableAux, hp] at h
    | some p =>
      obtain ⟨b, st1⟩ := p
      cases hrest : processTableAux cols st1 rest with
      | none => simp [processTableAux, hp, hrest] at h
      | some pq =>
        obtain ⟨st2a, adma⟩ := pq
        simp [processTableAux, hp, hrest] at h
        obtain ⟨hst2, hadm⟩ := h
        subst hst2
        subst hadm
        obtain ⟨idv, hid, hmem1, hsub, hfresh⟩ := processRow_id cols st row b st1 hp
        obtain ⟨ih0, ih1⟩ := ih st1 st2a adma hrest
        cases b with
        | false =>
          simp only [if_neg (by simp : ¬ (false = true))]
          exact ⟨fun x hx => ih0 x (hsub hx), ih1⟩
        | true =>
          have hif : (if true = true then row :: adma else adma) = row :: adma :=
            if_pos rfl
          rw [hif]
          constructor
          · intro x hx
            have hne : ¬ dcId cols row = some x := by
              intro hcontra
              rw [hid] at hcontra
              have hix : idv = x := by injection hcontra
              subst hix
              exact hfresh rfl hx
            have h0 := ih0 x (hsub hx)
            rw [List.countP_cons, h0]
            simp [hne]
          · intro x
            rw [List.countP_cons]
            by_cases hx : dcId cols row = some x
            · have hxi : idv = x := by
                rw [hid] at hx
                injection hx
              subst hxi
              have h0 : adma.countP (fun r => decide (dcId cols r = some idv)) = 0 :=
                ih0 idv hmem1
              simp [hx, h0]
            · simp [hx]
              exact ih1 x

theorem processTableAux_first (cols : List Column) :
    ∀ (rows : List (List SValue)) (st st2 : VState) (adm : List (List SValue)),
      processTableAux cols st rows = some (st2, adm) →
      ∀ r ∈ adm, ∀ x, dcId cols r = some x →
        rows.find? (fun q => decide (dcId cols q = some x)) = some r := by
  intro rows
  induction rows with
  | nil =>
    intro st st2 adm h r hr
    simp [processTableAux] at h
    obtain ⟨_, hadm⟩ := h
    subst hadm
    simp at hr
  | cons row rest ih =>
    intro st st2 adm h r hr x hx
    cases hp : processRow cols st row with
    | none => simp [processTableAux, hp] at h
    | some p =>
      obtain ⟨b, st1⟩ := p
      cases hrest : processTableAux cols st1 rest with
      | none => simp [processTableAux, hp, hrest] at h
      | some pq =>
        obtain ⟨st2a, adma⟩ := pq
        simp [processTableAux, hp, hrest] at h
        obtain ⟨hst2, hadm⟩ := h
        subst hst2
        subst hadm
        obtain ⟨idv, hid, hmem1, hsub, hfresh⟩ := processRow_id cols st row b st1 hp
        obtain ⟨ih0, _⟩ := processTableAux_count cols rest st1 st2a adma hrest
        have htail : r ∈ adma → List.find? (fun q => decide (dcId cols q = some x)) (row :: rest) = some r := by
          intro hmem
          have hfind := ih st1 st2a adma hrest r hmem x hx
          have hne : ¬ dcId cols row = some x := by
            intro hcontra
            rw [hid] at hcontra
            have hxi : idv = x := by injection hcontra
            subst hxi
            have hpos : 0 < adma.countP (fun q => decide (dcId cols q = some idv)) := by
              rw [List.countP_pos_iff]
              exact ⟨r, hmem, by simp [hx]⟩
            rw [ih0 idv hmem1] at hpos
            exact absurd hpos (by simp)
          rw [List.find?_cons_of_neg _ (by simp [hne])]
          exact hfind
        cases b with
        | false =>
          simp at hr
          exact htail hr
        | true =>
          simp at hr
          rcases hr with hr | hr
          · subst hr
            rw [List.find?_cons_of_pos _ (by simp [hx])]
          · exact htail hr

theorem dropWhile_head_not (p : Char → Bool) :
    ∀ (l : List Char) (c : Char) (t : List Char),
      List.dropWhile p l = c :: t → p c = false := by
  intro l
  induction l with
  | nil => intro c t h; simp [List.dropWhile] at h
  | cons a rest ih =>
    intro c t h
    cases hp : p a with
    | true =>
      rw [List.dropWhile_cons_of_pos hp] at h
      exact ih c t h
    | false =>
      rw [List.dropWhile_cons_of_neg (by simp [hp])] at h
      obtain ⟨ha, _⟩ := List.cons.inj h
      rw [← ha]
      exact hp

theorem compareRow_le_one (s : List SValue) :
    ∀ pg : List (List PValue), compareRow s pg ≤ 1 := by
  intro pg
  induction pg with
  | nil => simp [compareRow]
  | cons p rest ih =>
    by_cases hm : pyEqRow s (convertRow p)
    · simp [compareRow, hm]
    · simpa [compareRow, hm] using ih

/-! The claims. -/

/-- C1 (code bug): the claim says that at the start of each table's scan both
the seen-primary-identifier set and the seen-foreign-key-tuple set are empty.
`load_movies` resets only `_uniq_ids`; `_uniq_fk_ids` survives from table to
table, so the valid `person_film_work` row `pfwRow` is rejected solely
because the earlier `genre_film_work` table recorded the same foreign-key
pair: the full run admits no `person_film_work` row, while the same table
scanned from a fresh state admits `pfwRow`. -/
theorem fk_state_not_reset_between_tables :
    loadMovies initState (registry [] [] [] [gfwRow] [pfwRow]) =
      some [("film_work", []), ("genre", []), ("person", []),
            ("genre_film_work", [gfwRow]), ("person_film_work", [])] ∧
    processTableAux personFilmWorkCols initState [pfwRow] =
      some (VState.mk [SValue.textV uuidB] [[uuidF, uuidG]], [pfwRow]) := by
  decide

/-- C2 counterexample: the type gate REJECTS the bare textual timestamp
`2021-01-01 12:00:00.000000` — the code appends the two characters `00`
(not `+00`), producing an eight-digit fraction with no offset sign, which
the format `%Y-%m-%d %H:%M:%S.%f%z` cannot match. -/
theorem optional_timestamp_bare_string_rejected :
    checkField FieldType.optDatetime
      (SValue.textV "2021-01-01 12:00:00.000000") = some false ∧
    convertStrToDatetime (SValue.textV "2021-01-01 12:00:00.000000") = none := by
  decide

/-- C2 amended: the gate accepts and parses a textual timestamp that already
carries the `+00` offset marker (the appended `00` completes it to `+0000`),
and rejects both the bare `2021-01-01 12:00:00.000000` and `not-a-date`. -/
theorem optional_timestamp_gate_amended :
    checkField FieldType.optDatetime
      (SValue.textV "2021-01-01 12:00:00.000000+00") = some true ∧
    convertStrToDatetime (SValue.textV "2021-01-01 12:00:00.000000+00") =
      some (PyDatetime.mk 2021 1 1 12 0 0 0 0) ∧
    checkField FieldType.optDatetime (SValue.textV "not-a-date") = some false := by
  decide

/-- C3 counterexample: a `genre` scan in which the identifier `not-a-uuid`
occurs in two rows but ZERO copies reach the Loader — the first occurrence
fails the type gate (its id is not a valid uuid) after its identifier was
already recorded, so the second occurrence is also rejected as a duplicate;
the claim's "exactly one" fails. -/
theorem duplicate_id_zero_copies :
    List.countP
      (fun r => decide (dcId genreCols r = some (SValue.textV "not-a-uuid")))
      [genreBadRow1, genreBadRow2] = 2 ∧
    processTableAux genreCols initState [genreBadRow1, genreBadRow2] =
      some (VState.mk [SValue.textV "not-a-uuid"] [[]], []) := by
  decide

/-- C3 amended: in one table's scan started with an empty seen-identifier
set, AT MOST one row per primary identifier is written to the batch, and any
row that is written is the first occurrence of its identifier in scan order
(so every later occurrence is rejected and never loaded); the first
occurrence itself may still be dropped by the other gates. -/
theorem duplicate_ids_at_most_first_admitted (cols : List Column)
    (fks0 : List (List String)) (rows : List (List SValue))
    (st2 : VState) (adm : List (List SValue)) (x : SValue)
    (h : processTableAux cols (VState.mk [] fks0) rows = some (st2, adm)) :
    adm.countP (fun r => decide (dcId cols r = some x)) ≤ 1 ∧
    ∀ r ∈ adm, dcId cols r = some x →
      rows.find? (fun q => decide (dcId cols q = some x)) = some r := by
  constructor
  · exact (processTableAux_count cols rows (VState.mk [] fks0) st2 adm h).2 x
  · intro r hr hx
    exact processTableAux_first cols rows (VState.mk [] fks0) st2 adm h r hr x hx

/-- C3 witness: a `genre` scan with the identifier `uuidA` in two type-valid
rows admits exactly the first of them. -/
theorem duplicate_ids_at_most_first_admitted_witness :
    List.countP
      (fun r => decide (dcId genreCols r = some (SValue.textV uuidA)))
      [genreRow1] ≤ 1 ∧
    List.find? (fun q => decide (dcId genreCols q = some (SValue.textV uuidA)))
      [genreRow1, genreRow2] = some genreRow1 := by
  have h := duplicate_ids_at_most_first_admitted genreCols [] [genreRow1, genreRow2]
    (VState.mk [SValue.textV uuidA] [[]]) [genreRow1] (SValue.textV uuidA) (by decide)
  exact ⟨h.1, h.2 genreRow1 (by decide) (by decide)⟩

/-- C4 counterexample: a field containing the tab delimiter is wrapped in
quote characters by the csv writer (the default `QUOTE_MINIMAL` is in
force), not backslash-escaped as the claim states. -/
theorem tab_field_quoted_not_escaped :
    csvField "a\tb".data = "\"a\tb\"".data := by
  decide

/-- C4 amended: serialization is tab-delimited in schema order with MINIMAL
quoting, not no quoting: an embedded backslash is escape-prefixed and plain
fields are written bare, but a field containing the delimiter (or quote/CR/LF)
is wrapped in quote characters instead of being escape-prefixed. -/
theorem csv_minimal_quoting (l : List Char)
    (h : ∀ c ∈ l, ¬ (c = '\t' ∨ c = '\r' ∨ c = '\n' ∨ c = '"' ∨ c = '\\')) :
    csvField l = l ∧
    csvField "a\\b".data = "a\\\\b".data ∧
    csvField "a\tb".data = '"' :: ("a\tb".data ++ ['"']) ∧
    csvWriterow [SValue.textV "a", SValue.null, SValue.intV 5] = "a\t\t5\r\n".data := by
  refine ⟨?_, by decide, by decide, by decide⟩
  have haux : csvFieldAux l = (l, false) := by
    induction l with
    | nil => rfl
    | cons c rest ih =>
      have hc := h c (by simp)
      have hrest : ∀ x ∈ rest, ¬ (x = '\t' ∨ x = '\r' ∨ x = '\n' ∨ x = '"' ∨ x = '\\') :=
        fun x hx => h x (by simp [hx])
      have ih2 := ih hrest
      simp only [csvFieldAux, ih2]
      simp at hc
      obtain ⟨h1, h2, h3, h4, h5⟩ := hc
      simp [h1, h2, h3, h4, h5]
  simp [csvField, haux]

/-- C4 witness: a field with none of the special characters passes through
the writer unchanged. -/
theorem csv_minimal_quoting_witness : csvField "abc".data = "abc".data :=
  (csv_minimal_quoting "abc".data (by decide)).1

/-- C5: when the batch shares at least one primary identifier with the rows
already in the target table, `_insert_in_pg` catches the `UniqueViolation`,
rolls the whole batch back (the table keeps exactly its prior rows, so its
row count is unchanged), reports zero rows inserted, and re-running the same
batch against the same target again inserts zero rows. -/
theorem pk_conflict_rolls_back_batch (t : PgTable) (batch : List (List SValue))
    (h : ∃ r ∈ batch, ∃ e ∈ t.rows, e.head? = r.head?) :
    insertInPg t batch = (t, 0) ∧
    (insertInPg t batch).1.rows.length = t.rows.length ∧
    insertInPg (insertInPg t batch).1 batch = (t, 0) := by
  have hc : copyFrom t batch = none := by
    rw [copyFrom, if_pos]
    rw [List.any_eq_true]
    obtain ⟨r, hr, e, he, heq⟩ := h
    refine ⟨r, hr, ?_⟩
    rw [List.any_eq_true]
    exact ⟨e, he, by simp [heq]⟩
  have h1 : insertInPg t batch = (t, 0) := by simp [insertInPg, hc]
  refine ⟨h1, by rw [h1], ?_⟩
  rw [h1]
  exact h1

/-- C5 witness: a one-row target and a batch starting with the same id. -/
theorem pk_conflict_rolls_back_batch_witness :
    insertInPg (PgTable.mk [[SValue.textV "1"]])
        [[SValue.textV "1", SValue.textV "x"]] =
      (PgTable.mk [[SValue.textV "1"]], 0) ∧
    (insertInPg (PgTable.mk [[SValue.textV "1"]])
        [[SValue.textV "1", SValue.textV "x"]]).1.rows.length =
      (PgTable.mk [[SValue.textV "1"]]).rows.length ∧
    insertInPg (insertInPg (PgTable.mk [[SValue.textV "1"]])
        [[SValue.textV "1", SValue.textV "x"]]).1
        [[SValue.textV "1", SValue.textV "x"]] =
      (PgTable.mk [[SValue.textV "1"]], 0) :=
  pk_conflict_rolls_back_batch (PgTable.mk [[SValue.textV "1"]])
    [[SValue.textV "1", SValue.textV "x"]]
    ⟨[SValue.textV "1", SValue.textV "x"], by decide,
     [SValue.textV "1"], by decide, by decide⟩

/-- C6 counterexample: a coercion failure that is NOT signalled by
`ValueError` escapes the validator — `uuid.UUID(None)` raises `TypeError`,
which `check_value_error` does not catch, so a `genre` row with a `NULL` id
crashes the whole run instead of being dropped. -/
theorem null_id_escapes_validator :
    checkValueError FieldType.uuidT SValue.null = none ∧
    validateTypes genreCols
      [SValue.null, SValue.textV "x", SValue.null, SValue.null, SValue.null] = none := by
  decide

/-- C6 amended: for non-union columns the gate yields a verdict whenever the
coercion failure is signalled by `ValueError` (every string is a verdict for
a uuid column, every value for a text column), and such a failure marks the
row invalid; but failures signalled by other exceptions (`TypeError`,
`AttributeError` on non-string uuid inputs) escape the validator. -/
theorem type_gate_value_error_only :
    (∀ s : String, ∃ b, checkValueError FieldType.uuidT (SValue.textV s) = some b) ∧
    (∀ v : SValue, checkValueError FieldType.strT v = some false) ∧
    checkValueError FieldType.uuidT (SValue.textV "not-a-uuid") = some true ∧
    validateTypes genreCols
      [SValue.textV "not-a-uuid", SValue.textV "x", SValue.null, SValue.null, SValue.null] =
      some false := by
  refine ⟨fun s => ⟨_, rfl⟩, fun v => by cases v <;> rfl, by decide, by decide⟩

/-- C7: in an association-table scan, a row whose trimmed foreign-key tuple
equals the tuple of a previously admitted row of the same scan is rejected
by the uniqueness gate even though its own primary identifier is fresh. -/
theorem repeated_fk_tuple_rejected (cols : List Column) (st0 : VState)
    (rowsA : List (List SValue)) (q r : List SValue) (t : List String)
    (idv : SValue) (st1 : VState) (adm : List (List SValue))
    (hscan : processTableAux cols st0 rowsA = some (st1, adm))
    (hq : q ∈ adm) (hqt : fkTuple cols q = some t) (hne : t ≠ [])
    (hrt : fkTuple cols r = some t)
    (hid : dcId cols r = some idv)
    (h0 : idv ∉ st0.uniqIds)
    (hfresh : ∀ p ∈ rowsA, ¬ dcId cols p = some idv) :
    processRow cols st1 r =
      some (false, VState.mk (idv :: st1.uniqIds) st1.uniqFks) := by
  have hfki : t ∈ st1.uniqFks :=
    processTableAux_fk_recorded cols rowsA st0 st1 adm hscan q hq t hqt
  have hidni : idv ∉ st1.uniqIds := by
    intro hmem
    rcases processTableAux_ids_bound cols rowsA st0 st1 adm hscan idv hmem with
      hin | ⟨p, hp, hidp⟩
    · exact h0 hin
    · exact hfresh p hp hidp
  have hv : validateUniqs cols st1 r =
      some (false, VState.mk (idv :: st1.uniqIds) st1.uniqFks) := by
    simp [validateUniqs, hid, hidni, hrt, hne, hfki]
  simp [processRow, hv]

/-- C7 witness: after admitting `gfwRow`, a row with a fresh id but the same
stripped foreign-key pair is rejected. -/
theorem repeated_fk_tuple_rejected_witness :
    processRow genreFilmWorkCols
        (VState.mk [SValue.textV uuidA] [[uuidF, uuidG]]) gfwRow2 =
      some (false,
        VState.mk [SValue.textV uuidB, SValue.textV uuidA] [[uuidF, uuidG]]) :=
  repeated_fk_tuple_rejected genreFilmWorkCols initState [gfwRow] gfwRow
    gfwRow2 [uuidF, uuidG] (SValue.textV uuidB)
    (VState.mk [SValue.textV uuidA] [[uuidF, uuidG]]) [gfwRow]
    (by decide) (by decide) (by decide) (by decide) (by decide) (by decide)
    (by decide) (by decide)

/-- C8: the inner scan of the Checker stops at the first match, so one source
row contributes at most one to `matched_count`; and the 3-source-rows /
2-target-rows scenario reports `(source, target, matched) = (3, 2, 2)`. -/
theorem checker_first_match_and_scenario :
    (∀ (s : List SValue) (pg : List (List PValue)), compareRow s pg ≤ 1) ∧
    checkTable [srcRow1, srcRow2, srcRow3] [pgRow1, pgRow2] = (3, 2, 2) := by
  exact ⟨fun s pg => compareRow_le_one s pg, by decide⟩

/-- C9 counterexample: `_convert` strips ALL trailing `'0'` characters, so
the target timestamp `2021-01-01 12:00:00.500000` normalizes to
`2021-01-01 12:00:00.5+00`, NOT to `2021-01-01 12:00:00.500000+00`; the
source string `2021-01-01 12:00:00.500000+00` is judged UNEQUAL to that
target value. -/
theorem timestamp_normalization_counterexample :
    convertCell (PValue.timeV dtHalf) =
      SValue.textV "2021-01-01 12:00:00.5+00" ∧
    compareRow [SValue.textV "2021-01-01 12:00:00.500000+00"]
      [[PValue.timeV dtHalf]] = 0 := by
  decide

/-- C9 amended: the normalization truncates every trailing zero fractional
digit, so the matching source string for the half-second target timestamp is
`2021-01-01 12:00:00.5+00` (judged equal), while NO target timestamp value
normalizes to `2021-01-01 12:00:00.500000+00` (a normalized string never has
a `'0'` directly before the appended `+00`). -/
theorem timestamp_normalization_amended :
    compareRow [SValue.textV "2021-01-01 12:00:00.5+00"]
      [[PValue.timeV dtHalf]] = 1 ∧
    ∀ dt : PyDatetime,
      (normalizeDatetime dt == "2021-01-01 12:00:00.500000+00".data) = false := by
  constructor
  · decide
  · intro dt
    rw [beq_eq_false_iff_ne]
    intro h
    have hs : ("2021-01-01 12:00:00.500000+00".data : List Char) =
        "2021-01-01 12:00:00.500000".data ++ "+00".data := by decide
    rw [normalizeDatetime, hs] at h
    have h2 : rstripZeros (strftimeF dt) = "2021-01-01 12:00:00.500000".data :=
      List.append_cancel_right h
    have h3 : List.dropWhile (fun c => c = '0') (strftimeF dt).reverse =
        ("2021-01-01 12:00:00.500000".data).reverse := by
      have h4 := congrArg List.reverse h2
      rw [rstripZeros, List.reverse_reverse] at h4
      exact h4
    have h5 : List.dropWhile (fun c => c = '0') (strftimeF dt).reverse =
        '0' :: "00005.00:00:21 10-10-1202".data := by
      rw [h3]
      decide
    have h6 := dropWhile_head_not (fun c => c = '0') (strftimeF dt).reverse
      '0' ("00005.00:00:21 10-10-1202".data) h5
    simp at h6

/-- C10: coercion to `str` never fails, so a column declared as plain text
accepts every sqlite value whatsoever — including `NULL`: a `genre` row with
a `NULL` (non-nullable) `name` still passes the whole type gate. -/
theorem plain_text_gate_accepts_everything :
    (∀ v : SValue, checkValueError FieldType.strT v = some false) ∧
    (∀ v : SValue, checkField FieldType.strT v = some true) ∧
    validateTypes genreCols
      [SValue.textV uuidA, SValue.null, SValue.null, SValue.null, SValue.null] =
      some true := by
  refine ⟨fun v => by cases v <;> rfl, fun v => by cases v <;> rfl, by decide⟩

end LoadData
